import Mathlib

/-!
Shallow embedding of the multi-tenant to-do service in this repository:
the task store and its HTTP route handlers (backend/routes/tasks.py),
the AI tool adapter (backend/agent/tools.py), the chat orchestration
(backend/routes/chat.py, backend/agent/chat_agent.py), the session
verifier (backend/auth.py), and the single-user console store
(src/storage.py).

Modelling conventions:
* Timestamps are natural numbers (UTC instants at the clock's resolution).
  Every call the code makes to the real-time clock is an explicit
  parameter of the embedded operation, one parameter per clock read, in
  program order; the clock is monotone, so later reads are `\ge` earlier
  ones, but two consecutive reads need not be equal (the microsecond
  clock can tick between them).
* The database is a list of rows in insertion order (SQLite assigns
  ascending primary keys, so insertion order is id order), plus the next
  id to assign.  `ORDER BY` is embedded as a stable insertion sort over
  that row order, `WHERE` as `List.filter`, `.first()` as `List.find?`.
* An ORM mutation (`task.title = ...` followed by `session.commit()`) is
  embedded by replacing the row in the list.  Attribute assignments made
  on a loaded row before an early `return` are kept in the resulting
  state even when no commit runs inside the call, because the shared
  request-scoped session's identity map retains them and no rollback is
  issued: any later read or commit on the same session observes them.
* HTTP exceptions become `Except HttpError`, tool envelopes become
  explicit result structures mirroring the returned dicts.
-/

/-- A structured HTTP error as raised via HTTPException: status code plus
the `\x7bcode, message\x7d` detail body. -/
structure HttpError where
  status_code : Nat
  code : String
  message : String
  deriving Repr, DecidableEq

/-- Model of the external stdlib routine `datetime.fromisoformat`,
restricted to the date-only `YYYY-MM-DD` strings the system prompts the
agent to supply: ten characters, digits in the date positions, dashes at
positions 4 and 7, month in 1..12 and day in 1..31.  Returns the encoded
instant `y*10000 + m*100 + d` on success and `none` where the stdlib
routine would raise `ValueError`. -/
def datetimeFromIsoformat (s : String) : Option Nat :=
  match s.data with
  | [y1, y2, y3, y4, d1, m1, m2, d2, a1, a2] =>
    if y1.isDigit && y2.isDigit && y3.isDigit && y4.isDigit &&
       (d1 = '-') && m1.isDigit && m2.isDigit && (d2 = '-') &&
       a1.isDigit && a2.isDigit then
      let y := ((y1.toNat - 48) * 10 + (y2.toNat - 48)) * 100 +
               ((y3.toNat - 48) * 10 + (y4.toNat - 48))
      let m := (m1.toNat - 48) * 10 + (m2.toNat - 48)
      let d := (a1.toNat - 48) * 10 + (a2.toNat - 48)
      if 1 ≤ m && m ≤ 12 && 1 ≤ d && d ≤ 31 then
        some (y * 10000 + m * 100 + d)
      else none
    else none
  | _ => none

/-- Model of Python's `str.strip()`: drop leading and trailing
whitespace.  (Defined from first principles so that it reduces inside
the kernel; Lean's own `String.trim` is defined by well-founded
recursion and does not.) -/
def pyStrip (s : String) : String :=
  ⟨((s.data.dropWhile Char.isWhitespace).reverse.dropWhile Char.isWhitespace).reverse⟩

/-!
## Session verifier (backend/auth.py, `verify_session_token`)

The session table is externally owned; a row holds the token, the owning
user id, and an optional expiry.  The database driver may hand the
`expiresAt` column back as a timezone-aware datetime, a naive datetime,
or (under SQLite) a string; the code normalizes all three to a UTC
instant before comparing with `datetime.now(timezone.utc)`.
-/

/-- A non-null `expiresAt` value as returned by the database driver.
Each constructor carries the UTC instant the code's normalization
produces for it: a string value is parsed with `fromisoformat` and then
`replace(tzinfo=utc)` interprets its clock fields as UTC; a naive
datetime is likewise assumed UTC; an aware datetime already denotes its
instant. -/
inductive DbDatetime where
  | strVal (t : Nat)
  | naiveVal (t : Nat)
  | awareVal (t : Nat)
  deriving Repr, DecidableEq

/-- The UTC instant obtained after the normalization in
`verify_session_token` (string parse / naive-to-UTC / identity). -/
def DbDatetime.toUtc : DbDatetime → Nat
  | .strVal t => t
  | .naiveVal t => t
  | .awareVal t => t

/-- One row of the externally-owned `session` table. -/
structure SessionRow where
  token : String
  userId : String
  expiresAt : Option DbDatetime
  deriving Repr, DecidableEq

/-- The 401 raised for a token absent from the session table. -/
def invalidSessionError : HttpError :=
  ⟨401, "INVALID_SESSION", "Invalid session. Please sign in again."⟩

/-- The 401 raised for a session whose expiry lies in the past. -/
def expiredSessionError : HttpError :=
  ⟨401, "EXPIRED_SESSION", "Session expired. Please sign in again."⟩

/-- Embedding of `verify_session_token(token, db)`: look the token up in
the session table (`SELECT "userId", "expiresAt" FROM "session" WHERE
token = :token`), reject absent tokens with `INVALID_SESSION`; when the
row's expiry is non-null (`if expires_at:`), normalize it to UTC and
reject with `EXPIRED_SESSION` when it is strictly before `now`;
otherwise return the owning user id. -/
def verify_session_token (token : String) (now : Nat)
    (table : List SessionRow) : Except HttpError String :=
  match table.find? (fun r => r.token == token) with
  | none => .error invalidSessionError
  | some r =>
    match r.expiresAt with
    | none => .ok r.userId
    | some d =>
      if d.toUtc < now then .error expiredSessionError
      else .ok r.userId

/-- C8: for every presented token, verification fails with
`INVALID_SESSION` when the token is absent from the session table; when
it is present, it fails with `EXPIRED_SESSION` if the (UTC-normalized)
expiry timestamp is in the past, and otherwise returns the owning user
identity. -/
theorem verify_session_token_C8 :
    (∀ (token : String) (now : Nat) (table : List SessionRow),
      table.find? (fun r => r.token == token) = none →
      verify_session_token token now table = .error invalidSessionError) ∧
    (∀ (token : String) (now : Nat) (table : List SessionRow)
       (r : SessionRow) (d : DbDatetime),
      table.find? (fun r => r.token == token) = some r →
      r.expiresAt = some d → d.toUtc < now →
      verify_session_token token now table = .error expiredSessionError) ∧
    (∀ (token : String) (now : Nat) (table : List SessionRow)
       (r : SessionRow) (d : DbDatetime),
      table.find? (fun r => r.token == token) = some r →
      r.expiresAt = some d → ¬ d.toUtc < now →
      verify_session_token token now table = .ok r.userId) := by
  refine ⟨?_, ?_, ?_⟩
  · intro token now table h
    simp [verify_session_token, h]
  · intro token now table r d hfind hexp hlt
    simp [verify_session_token, hfind, hexp, hlt]
  · intro token now table r d hfind hexp hge
    simp [verify_session_token, hfind, hexp, hge]

/-- Witness for C8 at concrete inputs: a one-row table holding token
`tok` for user `u1` expiring at instant 10; the absent token `zz` is
rejected as invalid, at time 11 the session is expired, at time 9 it
verifies to `u1`. -/
theorem verify_session_token_C8_witness :
    verify_session_token "zz" 0 [⟨"tok", "u1", some (.naiveVal 10)⟩]
        = .error invalidSessionError ∧
    verify_session_token "tok" 11 [⟨"tok", "u1", some (.naiveVal 10)⟩]
        = .error expiredSessionError ∧
    verify_session_token "tok" 9 [⟨"tok", "u1", some (.naiveVal 10)⟩]
        = .ok "u1" := by
  refine ⟨?_, ?_, ?_⟩
  · exact verify_session_token_C8.1 "zz" 0 _ (by decide)
  · exact verify_session_token_C8.2.1 "tok" 11
      [⟨"tok", "u1", some (.naiveVal 10)⟩] ⟨"tok", "u1", some (.naiveVal 10)⟩
      (.naiveVal 10) (by decide) rfl (by decide)
  · exact verify_session_token_C8.2.2 "tok" 9
      [⟨"tok", "u1", some (.naiveVal 10)⟩] ⟨"tok", "u1", some (.naiveVal 10)⟩
      (.naiveVal 10) (by decide) rfl (by decide)

/-- C10: a session row stored with a NULL `expiresAt` is accepted with
no expiry check at all: verification returns the owning user id at every
point in time. -/
theorem verify_session_token_C10 :
    ∀ (token : String) (table : List SessionRow) (r : SessionRow),
      table.find? (fun r => r.token == token) = some r →
      r.expiresAt = none →
      ∀ now : Nat, verify_session_token token now table = .ok r.userId := by
  intro token table r hfind hexp now
  simp [verify_session_token, hfind, hexp]

/-- Witness for C10: a token whose row has no expiry verifies at times
0 and 999999 alike. -/
theorem verify_session_token_C10_witness :
    verify_session_token "tok" 0 [⟨"tok", "u1", none⟩] = .ok "u1" ∧
    verify_session_token "tok" 999999 [⟨"tok", "u1", none⟩] = .ok "u1" :=
  ⟨verify_session_token_C10 "tok" _ ⟨"tok", "u1", none⟩ (by decide) rfl 0,
   verify_session_token_C10 "tok" _ ⟨"tok", "u1", none⟩ (by decide) rfl 999999⟩

/-!
## Task entity (backend/models.py, `Task`)

The embedding of the task store lives in the `Todo` namespace because
`Task` would otherwise collide with the Lean core type of that name.
-/

namespace Todo

/-- Task priority levels (backend/models.py `TaskPriority`). -/
inductive TaskPriority where
  | low
  | medium
  | high
  deriving Repr, DecidableEq

/-- The string `.value` of a priority, as serialized by the tool layer. -/
def TaskPriority.value : TaskPriority → String
  | .low => "low"
  | .medium => "medium"
  | .high => "high"

/-- Task recurrence patterns (backend/models.py `RecurrencePattern`). -/
inductive RecurrencePattern where
  | nonePat
  | daily
  | weekly
  | monthly
  deriving Repr, DecidableEq

/-- One row of the `tasks` table (backend/models.py `Task`).  `id` is the
surrogate primary key; `created_at` and `updated_at` are filled by two
separate `default_factory` clock reads at construction; `deleted_at`
non-null marks the row soft-deleted. -/
structure Task where
  id : Nat
  user_id : String
  title : String
  description : String
  completed : Bool
  priority : TaskPriority
  due_date : Option Nat
  tags : List String
  recurrence_pattern : RecurrencePattern
  created_at : Nat
  updated_at : Nat
  deleted_at : Option Nat
  deriving Repr, DecidableEq

/-- The task table in insertion (= ascending id) order, plus the next
primary key the storage engine will assign. -/
structure TaskDB where
  tasks : List Task
  nextId : Nat
  deriving Repr, DecidableEq

/-- The row filter every by-id lookup uses:
`Task.id == task_id  AND  Task.deleted_at IS NULL`. -/
def activeWithId (task_id : Nat) (t : Task) : Bool :=
  t.id == task_id && t.deleted_at.isNone

/-- Replace the first row satisfying `p` by `f` of it, leaving the rest
of the table unchanged: the embedding of mutating the row object the ORM
`.first()` query returned and committing. -/
def updateFirst (p : α → Bool) (f : α → α) : List α → List α
  | [] => []
  | x :: xs => if p x then f x :: xs else x :: updateFirst p f xs

/-- The 404 body raised for a missing or cross-owner task, identical in
both cases. -/
def taskNotFoundError : HttpError := ⟨404, "TASK_NOT_FOUND", "Task not found"⟩

/-- Embedding of the route helper `get_user_task(task_id, user_id,
session, ...)`: select the first non-deleted row with the given id; 404
when none exists; when the row belongs to a different user, log a
security event (a pure observer, not modelled) and raise the very same
404; otherwise return the row. -/
def get_user_task (task_id : Nat) (user_id : String) (db : TaskDB) :
    Except HttpError Task :=
  match db.tasks.find? (activeWithId task_id) with
  | none => .error taskNotFoundError
  | some t =>
    if t.user_id ≠ user_id then .error taskNotFoundError
    else .ok t

/-- Embedding of the `GET /api/tasks` handler body: filter by owner and
non-deleted, optionally by completion status, order by `created_at`
descending (a stable sort over the table's id order). -/
def list_tasks_route (user_id : String) (completed : Option Bool)
    (db : TaskDB) : List Task :=
  let q := db.tasks.filter (fun t => t.user_id == user_id && t.deleted_at.isNone)
  let q := match completed with
    | none => q
    | some b => q.filter (fun t => t.completed == b)
  q.insertionSort (fun a b => b.created_at ≤ a.created_at)

/-- Embedding of the `POST /api/tasks` handler body: construct a row
with the authenticated user's id, the validated title and description,
and the model defaults (completed false, medium priority, no due date,
no tags, no recurrence, fresh timestamps from the two default-factory
clock reads `tCreated` then `tUpdated`), then insert and return it. -/
def create_task (user_id title description : String)
    (tCreated tUpdated : Nat) (db : TaskDB) : Task × TaskDB :=
  let t : Task :=
    { id := db.nextId, user_id := user_id, title := title,
      description := description, completed := false,
      priority := .medium, due_date := none, tags := [],
      recurrence_pattern := .nonePat,
      created_at := tCreated, updated_at := tUpdated, deleted_at := none }
  (t, { tasks := db.tasks ++ [t], nextId := db.nextId + 1 })

/-- Embedding of the `PUT /api/tasks/:id` handler body: resolve the row
through `get_user_task`, overwrite exactly the provided fields, stamp
`updated_at` with a fresh clock read, commit, and return the row. -/
def update_task_route (task_id : Nat) (user_id : String)
    (title description : Option String) (completed : Option Bool)
    (now : Nat) (db : TaskDB) : Except HttpError Task × TaskDB :=
  match get_user_task task_id user_id db with
  | .error e => (.error e, db)
  | .ok t =>
    let t2 : Task :=
      { t with title := title.getD t.title,
               description := description.getD t.description,
               completed := completed.getD t.completed,
               updated_at := now }
    (.ok t2, { db with tasks := updateFirst (activeWithId task_id) (fun _ => t2) db.tasks })

/-- Embedding of the `DELETE /api/tasks/:id` handler body: resolve the
row through `get_user_task`, then set `deleted_at` and `updated_at` from
two fresh clock reads and commit; the row is never removed from the
table. -/
def delete_task_route (task_id : Nat) (user_id : String)
    (tDeleted tUpdated : Nat) (db : TaskDB) : Except HttpError Unit × TaskDB :=
  match get_user_task task_id user_id db with
  | .error e => (.error e, db)
  | .ok t =>
    let t2 : Task := { t with deleted_at := some tDeleted, updated_at := tUpdated }
    (.ok (), { db with tasks := updateFirst (activeWithId task_id) (fun _ => t2) db.tasks })

/-- Embedding of the `PATCH /api/tasks/:id/complete` handler body:
resolve the row through `get_user_task`, flip `completed`, stamp
`updated_at`, commit, and return the row. -/
def toggle_task_completion (task_id : Nat) (user_id : String)
    (now : Nat) (db : TaskDB) : Except HttpError Task × TaskDB :=
  match get_user_task task_id user_id db with
  | .error e => (.error e, db)
  | .ok t =>
    let t2 : Task := { t with completed := !t.completed, updated_at := now }
    (.ok t2, { db with tasks := updateFirst (activeWithId task_id) (fun _ => t2) db.tasks })

/-- Primary-key discipline: no two rows of the table share an id. -/
def TaskDB.idsNodup (db : TaskDB) : Prop := (db.tasks.map Task.id).Nodup


/-!
## Tool adapter (backend/agent/tools.py)

Each `_impl` function takes the closure-bound `user_id` and the shared
request session, and returns a result dict.  The dicts are embedded as
the `ToolResult` structure: a field is `none` exactly when the source
dict omits the corresponding key.
-/

/-- The uniform result envelope the tool implementations return.
Success envelopes populate the informational fields; failure envelopes
populate `error` and `error_code`. -/
structure ToolResult where
  success : Bool
  error : Option String := none
  error_code : Option String := none
  task_id : Option Nat := none
  title : Option String := none
  description : Option String := none
  statusField : Option String := none
  completed_at : Option Nat := none
  updated_at : Option Nat := none
  message : Option String := none
  deriving Repr, DecidableEq

/-- The failure envelope shared verbatim by `_complete_task_impl`,
`_delete_task_impl` and `_update_task_impl` for a missing or
cross-owner task id. -/
def taskNotFoundResult : ToolResult :=
  { success := false, error := some "Task not found",
    error_code := some "TASK_NOT_FOUND" }

/-- The failure envelope for an unparsable due-date string. -/
def invalidDateResult (due_date : String) : ToolResult :=
  { success := false,
    error := some ("Invalid date format: " ++ due_date ++ ". Use YYYY-MM-DD."),
    error_code := some "VALIDATION_ERROR" }

/-- Embedding of `_add_task_impl(user_id, session, title, description,
due_date)`: when `due_date` is truthy (neither None nor empty) it is
parsed first, and a parse failure returns `VALIDATION_ERROR` before any
row is constructed; otherwise a row is inserted with the stripped title
and description and the model-default timestamps (two clock reads), and
a success envelope is returned. -/
def add_task_impl (user_id : String) (title : String)
    (description : String) (due_date : Option String)
    (tCreated tUpdated : Nat) (db : TaskDB) : ToolResult × TaskDB :=
  let parseStep : Except ToolResult (Option Nat) :=
    match due_date with
    | none => .ok none
    | some s =>
      if s == "" then .ok none
      else
        match datetimeFromIsoformat s with
        | none => .error (invalidDateResult s)
        | some parsed => .ok (some parsed)
  match parseStep with
  | .error e => (e, db)
  | .ok parsed_due_date =>
    let t : Task :=
      { id := db.nextId, user_id := user_id, title := pyStrip title,
        description := pyStrip description, completed := false,
        priority := .medium, due_date := parsed_due_date, tags := [],
        recurrence_pattern := .nonePat,
        created_at := tCreated, updated_at := tUpdated, deleted_at := none }
    ({ success := true, task_id := some t.id, title := some t.title,
       description := some t.description, statusField := some "pending",
       message := some ("Task \x27" ++ t.title ++ "\x27 created successfully.") },
     { tasks := db.tasks ++ [t], nextId := db.nextId + 1 })

/-- One entry of the `tasks` list returned by `_list_tasks_impl`. -/
structure ListedTask where
  task_id : Nat
  title : String
  description : String
  completed : Bool
  priority : String
  created_at : Option Nat
  deriving Repr, DecidableEq

/-- The envelope returned by `_list_tasks_impl`. -/
structure ListToolResult where
  success : Bool
  tasks : List ListedTask
  count : Nat
  message : String
  deriving Repr, DecidableEq

/-- Embedding of `_list_tasks_impl(user_id, session, status)`: filter by
owner and non-deleted, narrow by the status string when it is exactly
`pending` or `completed` (any other string means no status filter),
order by `created_at` descending, and serialize each row. -/
def list_tasks_impl (user_id : String) (statusArg : String)
    (db : TaskDB) : ListToolResult :=
  let q := db.tasks.filter (fun t => t.user_id == user_id && t.deleted_at.isNone)
  let q := if statusArg == "pending" then q.filter (fun t => t.completed == false)
    else if statusArg == "completed" then q.filter (fun t => t.completed == true)
    else q
  let sorted := q.insertionSort (fun a b => b.created_at ≤ a.created_at)
  let task_list := sorted.map (fun t =>
    ({ task_id := t.id, title := t.title, description := t.description,
       completed := t.completed, priority := t.priority.value,
       created_at := some t.created_at } : ListedTask))
  { success := true, tasks := task_list, count := task_list.length,
    message := "Found " ++ toString task_list.length ++ " task(s)." }

/-- Embedding of `_complete_task_impl(user_id, session, task_id)`: find
the first non-deleted row with the id; a missing row or one owned by a
different user yields the shared `TASK_NOT_FOUND` envelope; an already
completed task returns success with an informational message and no
mutation; otherwise the row is marked completed with a fresh
`updated_at` and committed. -/
def complete_task_impl (user_id : String) (task_id : Nat)
    (now : Nat) (db : TaskDB) : ToolResult × TaskDB :=
  match db.tasks.find? (activeWithId task_id) with
  | none => (taskNotFoundResult, db)
  | some t =>
    if t.user_id ≠ user_id then (taskNotFoundResult, db)
    else if t.completed then
      ({ success := true, task_id := some t.id, title := some t.title,
         statusField := some "completed",
         message := some ("Task \x27" ++ t.title ++ "\x27 is already completed.") },
       db)
    else
      let t2 : Task := { t with completed := true, updated_at := now }
      ({ success := true, task_id := some t2.id, title := some t2.title,
         statusField := some "completed", completed_at := some t2.updated_at,
         message := some ("Task \x27" ++ t2.title ++ "\x27 marked as completed.") },
       { db with tasks := updateFirst (activeWithId task_id) (fun _ => t2) db.tasks })

/-- Embedding of `_delete_task_impl(user_id, session, task_id)`: same
lookup and `TASK_NOT_FOUND` envelope as completion; on success the row
gets `deleted_at` and `updated_at` from two fresh clock reads and stays
in the table. -/
def delete_task_impl (user_id : String) (task_id : Nat)
    (tDeleted tUpdated : Nat) (db : TaskDB) : ToolResult × TaskDB :=
  match db.tasks.find? (activeWithId task_id) with
  | none => (taskNotFoundResult, db)
  | some t =>
    if t.user_id ≠ user_id then (taskNotFoundResult, db)
    else
      let t2 : Task := { t with deleted_at := some tDeleted, updated_at := tUpdated }
      ({ success := true, task_id := some t2.id, title := some t2.title,
         message := some ("Task \x27" ++ t2.title ++ "\x27 deleted successfully.") },
       { db with tasks := updateFirst (activeWithId task_id) (fun _ => t2) db.tasks })

/-- The failure envelope for an update call that supplies no field. -/
def noFieldsResult : ToolResult :=
  { success := false,
    error := some "At least one field (title, description, or due_date) must be provided.",
    error_code := some "VALIDATION_ERROR" }

/-- The success envelope `_update_task_impl` returns for the finally
committed row. -/
def updateSuccessResult (t3 : Task) : ToolResult :=
  { success := true, task_id := some t3.id, title := some t3.title,
    description := some t3.description, updated_at := some t3.updated_at,
    message := some ("Task \x27" ++ t3.title ++ "\x27 updated successfully.") }

/-- Embedding of `_update_task_impl(user_id, session, task_id, title,
description, due_date)`.  The zero-field check precedes the lookup; the
lookup failure envelope is the shared `TASK_NOT_FOUND`.  The field
assignments then run in source order: title and description are written
onto the session-held row first, and only afterwards is `due_date`
parsed - so a parse failure returns `VALIDATION_ERROR` with the title
and description assignments already applied to the row (the session is
never rolled back), while `due_date` and `updated_at` keep their prior
values. -/
def update_task_impl (user_id : String) (task_id : Nat)
    (title description due_date : Option String)
    (now : Nat) (db : TaskDB) : ToolResult × TaskDB :=
  if title.isNone && description.isNone && due_date.isNone then
    (noFieldsResult, db)
  else
    match db.tasks.find? (activeWithId task_id) with
    | none => (taskNotFoundResult, db)
    | some t =>
      if t.user_id ≠ user_id then (taskNotFoundResult, db)
      else
        let t1 := match title with
          | some s => { t with title := pyStrip s }
          | none => t
        let t2 := match description with
          | some s => { t1 with description := pyStrip s }
          | none => t1
        match due_date with
        | some s =>
          match datetimeFromIsoformat s with
          | none =>
            (invalidDateResult s,
             { db with tasks := updateFirst (activeWithId task_id) (fun _ => t2) db.tasks })
          | some parsed =>
            let t3 : Task := { t2 with due_date := some parsed, updated_at := now }
            (updateSuccessResult t3,
             { db with tasks := updateFirst (activeWithId task_id) (fun _ => t3) db.tasks })
        | none =>
          let t3 : Task := { t2 with updated_at := now }
          (updateSuccessResult t3,
           { db with tasks := updateFirst (activeWithId task_id) (fun _ => t3) db.tasks })


/-!
## Console store (src/storage.py, `TaskStorage`)

The separate single-user console application keeps tasks in an
in-memory dict keyed by id; the dict is embedded as a list in insertion
(= id) order together with the next id counter.
-/

/-- A console-app task (src/models.py `Task`): id, title, description,
completion flag, and the two timestamps. -/
structure ConsoleTask where
  id : Nat
  title : String
  description : String
  completed : Bool
  created_at : Nat
  updated_at : Nat
  deriving Repr, DecidableEq

/-- The in-memory console store: tasks in insertion order plus the next
id, starting at 1 and never reused. -/
structure TaskStorage where
  tasks : List ConsoleTask
  next_id : Nat
  deriving Repr, DecidableEq

/-- `TaskStorage.__init__`: empty dict, id counter at 1. -/
def TaskStorage.init : TaskStorage := ⟨[], 1⟩

/-- Embedding of `TaskStorage.add(title, description)`: a single clock
read `now` fills both `created_at` and `updated_at` of the new task. -/
def TaskStorage.add (s : TaskStorage) (title description : String)
    (now : Nat) : ConsoleTask × TaskStorage :=
  let t : ConsoleTask :=
    { id := s.next_id, title := title, description := description,
      completed := false, created_at := now, updated_at := now }
  (t, { tasks := s.tasks ++ [t], next_id := s.next_id + 1 })

/-- Embedding of `TaskStorage.get(task_id)`: dictionary lookup. -/
def TaskStorage.get (s : TaskStorage) (task_id : Nat) : Option ConsoleTask :=
  s.tasks.find? (fun t => t.id == task_id)

/-!
## Conversation and message store, chat orchestration
(backend/models.py, backend/routes/chat.py, backend/agent/chat_agent.py)
-/

/-- One row of the `conversations` table. -/
structure Conversation where
  id : Nat
  user_id : String
  created_at : Nat
  updated_at : Nat
  deleted_at : Option Nat
  deriving Repr, DecidableEq

/-- One recorded tool invocation (`\x7btool, args, result\x7d`); the
argument and result dicts are kept as their serialized JSON text, whose
internal structure no verified path inspects. -/
structure ToolCallRec where
  tool : String
  args : String
  result : String
  deriving Repr, DecidableEq

/-- One row of the `messages` table.  `tool_calls` embeds the
`tool_calls_json` column: the JSON (de)serialization is external
library behavior, so the column is modelled as holding the structured
record itself, `none` for SQL NULL. -/
structure Message where
  id : Nat
  conversation_id : Nat
  user_id : String
  role : String
  content : String
  tool_calls : Option (List ToolCallRec)
  created_at : Nat
  deriving Repr, DecidableEq

/-- The chat-side database: conversation and message tables in insertion
order plus their id counters. -/
structure ChatState where
  convs : List Conversation
  msgs : List Message
  nextConvId : Nat
  nextMsgId : Nat
  deriving Repr, DecidableEq

/-- Embedding of the helper `create_conversation(user_id, session)`:
insert a fresh conversation whose two timestamps come from the two
default-factory clock reads. -/
def create_conversation (user_id : String) (tCreated tUpdated : Nat)
    (st : ChatState) : Conversation × ChatState :=
  let c : Conversation :=
    { id := st.nextConvId, user_id := user_id,
      created_at := tCreated, updated_at := tUpdated, deleted_at := none }
  (c, { st with convs := st.convs ++ [c], nextConvId := st.nextConvId + 1 })

/-- Embedding of the helper `get_conversation(conversation_id, user_id,
session)`: first row matching id, owner, and not soft-deleted. -/
def get_conversation (conversation_id : Nat) (user_id : String)
    (st : ChatState) : Option Conversation :=
  st.convs.find? (fun c =>
    c.id == conversation_id && c.user_id == user_id && c.deleted_at.isNone)

/-- Embedding of the helper `save_message(...)`: append-only insert of a
message row; nothing else in the table is touched. -/
def save_message (conversation_id : Nat) (user_id role content : String)
    (tool_calls : Option (List ToolCallRec)) (now : Nat)
    (st : ChatState) : Message × ChatState :=
  let m : Message :=
    { id := st.nextMsgId, conversation_id := conversation_id,
      user_id := user_id, role := role, content := content,
      tool_calls := tool_calls, created_at := now }
  (m, { st with msgs := st.msgs ++ [m], nextMsgId := st.nextMsgId + 1 })

/-- Message ordering key used by `load_messages`: ascending
`created_at`. -/
def msgCreatedLe (a b : Message) : Prop := a.created_at ≤ b.created_at

instance : DecidableRel msgCreatedLe := fun a b =>
  inferInstanceAs (Decidable (a.created_at ≤ b.created_at))

/-- Embedding of `load_messages(conversation_id, session, limit)`:
`WHERE conversation_id = c ORDER BY created_at ASC LIMIT limit` over the
message table - rows filtered in id order, stably sorted on
`created_at`, truncated to `limit` (default 50 at the Python level). -/
def load_messages (conversation_id : Nat) (st : ChatState)
    (limit : Nat := 50) : List Message :=
  (((st.msgs.filter (fun m => m.conversation_id == conversation_id)).insertionSort
      msgCreatedLe).take limit)

/-- The `AgentResult` dataclass from chat_agent.py. -/
structure AgentResult where
  response : String
  tool_calls : Option (List ToolCallRec)
  deriving Repr, DecidableEq

/-- The behavior of the external agent runtime on one turn, which the
code cannot influence: the bounded wait either times out, raises some
unexpected error, or yields a final output text plus the recorded tool
invocations. -/
inductive AgentOutcome where
  | timeout
  | failure (msg : String)
  | success (finalOutput : String) (items : List ToolCallRec)
  deriving Repr, DecidableEq

/-- The fallback reply substituted for an empty agent output. -/
def emptyReplyFallback : String :=
  "I\x27m not sure how to help with that. You can ask me to add, list, complete, delete, or update tasks."

/-- Embedding of `run_agent(agent, messages, timeout)`: an
`asyncio.TimeoutError` and any unexpected exception are each re-raised
as the single `AIServiceError` condition (carried here as the error
message); on success the final output is taken as the reply, with a
fallback text when it is empty or whitespace, and an empty extracted
tool-call list becomes `None`. -/
def run_agent (outcome : AgentOutcome) : Except String AgentResult :=
  match outcome with
  | .timeout => .error "AI service timed out. Please try again."
  | .failure msg => .error ("AI service error: " ++ msg)
  | .success finalOutput items =>
    let response := if pyStrip finalOutput == "" then emptyReplyFallback else finalOutput
    .ok { response := response,
          tool_calls := if items.isEmpty then none else some items }

/-- The response body of `POST /api/chat`. -/
structure ChatResponse where
  conversation_id : Nat
  response : String
  tool_calls : Option (List ToolCallRec)
  deriving Repr, DecidableEq

/-- The clock reads a chat turn can make, in program order: the two
conversation default-factory reads (used only when a conversation is
created), the user-message read, the assistant-message read, and the
final conversation-timestamp bump. -/
structure ChatClock where
  convCreatedAt : Nat
  convUpdatedAt : Nat
  userMsgAt : Nat
  assistantMsgAt : Nat
  bumpAt : Nat
  deriving Repr, DecidableEq

/-- The tail of `send_chat_message` after the conversation has been
resolved: persist the inbound user message, hand history and tools to
the external runtime, and either re-signal its failure as a 503
`AI_SERVICE_UNAVAILABLE` (leaving the user message stored and storing
nothing else) or persist the assistant reply with its tool-call record
and bump the conversation timestamp. -/
def chat_turn_after_conversation (user_id : String) (conv : Conversation)
    (text : String) (outcome : AgentOutcome) (clk : ChatClock)
    (st : ChatState) : Except HttpError ChatResponse × ChatState :=
  let st2 := (save_message conv.id user_id "user" text none clk.userMsgAt st).2
  match run_agent outcome with
  | .error e =>
    (.error ⟨503, "AI_SERVICE_UNAVAILABLE", e⟩, st2)
  | .ok r =>
    let st3 := (save_message conv.id user_id "assistant" r.response
        r.tool_calls clk.assistantMsgAt st2).2
    let bumped := updateFirst (fun c => c.id == conv.id)
      (fun c => { c with updated_at := clk.bumpAt }) st3.convs
    let st4 := { st3 with convs := bumped }
    (.ok { conversation_id := conv.id, response := r.response,
           tool_calls := r.tool_calls }, st4)

/-- Embedding of the `POST /api/chat` handler: strip and reject an empty
message with 422; resolve the conversation (404 for a missing or
cross-owner id, a fresh conversation when no id is supplied); then run
the turn tail above.  The loaded history feeds only the external
runtime, whose behavior is the explicit `outcome` argument. -/
def send_chat_message (user_id : String) (conversation_id : Option Nat)
    (message : String) (outcome : AgentOutcome) (clk : ChatClock)
    (st : ChatState) : Except HttpError ChatResponse × ChatState :=
  let text := pyStrip message
  if text == "" then
    (.error ⟨422, "VALIDATION_ERROR", "Message cannot be empty."⟩, st)
  else
    match conversation_id with
    | some cid =>
      match get_conversation cid user_id st with
      | none =>
        (.error ⟨404, "CONVERSATION_NOT_FOUND", "Conversation not found."⟩, st)
      | some conv => chat_turn_after_conversation user_id conv text outcome clk st
    | none =>
      let (conv, st1) := create_conversation user_id clk.convCreatedAt
        clk.convUpdatedAt st
      chat_turn_after_conversation user_id conv text outcome clk st1

/-- A message as rendered by `GET /api/conversations/:id/messages`. -/
structure MessageResponse where
  id : Nat
  role : String
  content : String
  tool_calls : Option (List ToolCallRec)
  created_at : Nat
  deriving Repr, DecidableEq

/-- Embedding of the `GET /api/conversations/:id/messages` handler
together with its framework-validated `limit` query parameter
(`Query(default=50, ge=1, le=100)`): an absent limit defaults to 50, an
out-of-range one is rejected with 422 before the handler body runs; the
handler then enforces conversation ownership (404, indistinguishable
from absence) and renders `load_messages`. -/
def get_conversation_messages (conversation_id : Nat) (user_id : String)
    (limit : Option Nat) (st : ChatState) :
    Except HttpError (List MessageResponse) :=
  match limit with
  | some l =>
    if l < 1 ∨ 100 < l then
      .error ⟨422, "VALIDATION_ERROR", "limit must be between 1 and 100"⟩
    else
      match get_conversation conversation_id user_id st with
      | none => .error ⟨404, "CONVERSATION_NOT_FOUND", "Conversation not found."⟩
      | some _ =>
        .ok ((load_messages conversation_id st l).map (fun m =>
          { id := m.id, role := m.role, content := m.content,
            tool_calls := m.tool_calls, created_at := m.created_at }))
  | none =>
    match get_conversation conversation_id user_id st with
    | none => .error ⟨404, "CONVERSATION_NOT_FOUND", "Conversation not found."⟩
    | some _ =>
      .ok ((load_messages conversation_id st 50).map (fun m =>
        { id := m.id, role := m.role, content := m.content,
          tool_calls := m.tool_calls, created_at := m.created_at }))


/-!
## Helper lemmas about the row-list primitives
-/

/-- Under primary-key uniqueness, the by-id lookup hits exactly the
non-deleted row carrying that id. -/
theorem find_active_of_mem {l : List Task} {t : Task} {i : Nat}
    (hnd : (l.map Task.id).Nodup) (hmem : t ∈ l) (hid : t.id = i)
    (hdel : t.deleted_at = none) :
    l.find? (activeWithId i) = some t := by
  induction l with
  | nil => cases hmem
  | cons x xs ih =>
    rcases List.mem_cons.mp hmem with hx | hx
    · subst hx
      have : activeWithId i t = true := by
        simp [activeWithId, hid, hdel]
      simp [List.find?_cons_of_pos _ this]
    · have hnd2 : (∀ y ∈ xs, ¬ y.id = x.id) ∧ (xs.map Task.id).Nodup := by
        simpa using hnd
      have hx_ne : x.id ≠ i := fun hxi => hnd2.1 t hx (by rw [hid, hxi])
      have hneg : activeWithId i x = false := by
        simp [activeWithId, hx_ne]
      rw [List.find?_cons_of_neg _ (by simp [hneg])]
      exact ih hnd2.2 hx

/-- `updateFirst` skips a prefix on which the predicate fails. -/
theorem updateFirst_append_neg {p : α → Bool} {f : α → α} {l₁ l₂ : List α}
    (h : ∀ x ∈ l₁, p x = false) :
    updateFirst p f (l₁ ++ l₂) = l₁ ++ updateFirst p f l₂ := by
  induction l₁ with
  | nil => simp
  | cons x xs ih =>
    have hx : p x = false := h x (List.mem_cons_self x xs)
    simp [updateFirst, hx, ih (fun y hy => h y (List.mem_cons_of_mem x hy))]

/-- When the lookup finds a row, the table splits as a failing prefix,
that row, and a suffix, and `updateFirst` rewrites exactly that row. -/
theorem updateFirst_decomp {p : α → Bool} (f : α → α) {l : List α} {t : α}
    (h : l.find? p = some t) :
    ∃ l₁ l₂, l = l₁ ++ t :: l₂ ∧ (∀ x ∈ l₁, p x = false) ∧
      updateFirst p f l = l₁ ++ f t :: l₂ := by
  rcases List.find?_eq_some.mp h with ⟨hpt, l₁, l₂, rfl, hneg⟩
  refine ⟨l₁, l₂, rfl, fun x hx => by simpa using hneg x hx, ?_⟩
  rw [updateFirst_append_neg (fun x hx => by simpa using hneg x hx)]
  simp [updateFirst, hpt]

/-- In an id-unique table split around a row, no other row shares its
id. -/
theorem nodup_decomp_id {l₁ l₂ : List Task} {t : Task}
    (hnd : ((l₁ ++ t :: l₂).map Task.id).Nodup) :
    (∀ x ∈ l₁, x.id ≠ t.id) ∧ (∀ x ∈ l₂, x.id ≠ t.id) := by
  rw [List.map_append, List.map_cons, List.nodup_append] at hnd
  obtain ⟨h1, h2, hdisj⟩ := hnd
  constructor
  · intro x hx heq
    exact hdisj (List.mem_map_of_mem Task.id hx) (by simp [heq])
  · intro x hx heq
    exact (List.nodup_cons.mp h2).1 (by
      simpa [heq] using List.mem_map_of_mem Task.id hx)

/-- The canonical consequence used by several ownership claims: if an
id-unique table contains a non-deleted row with id `i` owned by someone
other than `u`, then `get_user_task` yields exactly the shared 404. -/
theorem get_user_task_cross_owner {db : TaskDB} {t : Task} {i : Nat}
    {u : String} (hnd : db.idsNodup) (hmem : t ∈ db.tasks) (hid : t.id = i)
    (hdel : t.deleted_at = none) (howner : t.user_id ≠ u) :
    get_user_task i u db = .error taskNotFoundError := by
  have hfind := find_active_of_mem hnd hmem hid hdel
  simp [get_user_task, hfind, howner]

/-- When no live row carries id `i`, `get_user_task` yields exactly the
shared 404. -/
theorem get_user_task_absent {db : TaskDB} {i : Nat} {u : String}
    (h : ∀ t ∈ db.tasks, t.id = i → t.deleted_at ≠ none) :
    get_user_task i u db = .error taskNotFoundError := by
  have hfind : db.tasks.find? (activeWithId i) = none := by
    rw [List.find?_eq_none]
    intro x hx
    simp only [activeWithId, Bool.and_eq_true, beq_iff_eq,
      Option.isNone_iff_eq_none, not_and]
    intro hxi
    exact h x hx hxi
  simp [get_user_task, hfind]


/-- C1: for every authenticated caller and task id, if a non-deleted
task with that id exists but is owned by a different user, then the
route-level get, update, soft-delete and toggle-complete handlers and
the tool-adapter complete/delete/update operations all return exactly
the shared `TASK_NOT_FOUND` 404 (respectively the shared
`TASK_NOT_FOUND` envelope) and leave the table untouched - and a table
holding no live row with that id produces the very same values, so the
two cases are indistinguishable to the caller (no 403 or any other
distinguishing response exists).  The tool-adapter update clause asks
that at least one field be supplied, since the zero-field validation
check precedes the lookup. -/
theorem task_ops_cross_owner_C1
    (db : TaskDB) (u : String) (i : Nat) (t : Task)
    (hnd : db.idsNodup) (hmem : t ∈ db.tasks) (hid : t.id = i)
    (hdel : t.deleted_at = none) (howner : t.user_id ≠ u) :
    (get_user_task i u db = .error taskNotFoundError) ∧
    (∀ title description completed now,
      update_task_route i u title description completed now db
        = (.error taskNotFoundError, db)) ∧
    (∀ tDel tUpd, delete_task_route i u tDel tUpd db
        = (.error taskNotFoundError, db)) ∧
    (∀ now, toggle_task_completion i u now db
        = (.error taskNotFoundError, db)) ∧
    (∀ now, complete_task_impl u i now db = (taskNotFoundResult, db)) ∧
    (∀ tDel tUpd, delete_task_impl u i tDel tUpd db
        = (taskNotFoundResult, db)) ∧
    (∀ title description due_date now,
      ¬(title = none ∧ description = none ∧ due_date = none) →
      update_task_impl u i title description due_date now db
        = (taskNotFoundResult, db)) ∧
    (∀ db2 : TaskDB, (∀ x ∈ db2.tasks, x.id = i → x.deleted_at ≠ none) →
      (get_user_task i u db2 = .error taskNotFoundError) ∧
      (∀ title description completed now,
        update_task_route i u title description completed now db2
          = (.error taskNotFoundError, db2)) ∧
      (∀ tDel tUpd, delete_task_route i u tDel tUpd db2
          = (.error taskNotFoundError, db2)) ∧
      (∀ now, toggle_task_completion i u now db2
          = (.error taskNotFoundError, db2)) ∧
      (∀ now, complete_task_impl u i now db2 = (taskNotFoundResult, db2)) ∧
      (∀ tDel tUpd, delete_task_impl u i tDel tUpd db2
          = (taskNotFoundResult, db2)) ∧
      (∀ title description due_date now,
        ¬(title = none ∧ description = none ∧ due_date = none) →
        update_task_impl u i title description due_date now db2
          = (taskNotFoundResult, db2))) := by
  have hfind := find_active_of_mem hnd hmem hid hdel
  have hget := get_user_task_cross_owner hnd hmem hid hdel howner
  refine ⟨hget, ?_, ?_, ?_, ?_, ?_, ?_, ?_⟩
  · intro title description completed now
    simp [update_task_route, hget]
  · intro tDel tUpd
    simp [delete_task_route, hget]
  · intro now
    simp [toggle_task_completion, hget]
  · intro now
    simp [complete_task_impl, hfind, howner]
  · intro tDel tUpd
    simp [delete_task_impl, hfind, howner]
  · intro title description due_date now h
    have hz : (title.isNone && description.isNone && due_date.isNone) = false := by
      cases title <;> cases description <;> cases due_date <;> simp_all
    simp [update_task_impl, hz, hfind, howner]
  · intro db2 habsent
    have hget2 := get_user_task_absent (u := u) habsent
    have hfind2 : db2.tasks.find? (activeWithId i) = none := by
      rw [List.find?_eq_none]
      intro x hx
      simp only [activeWithId, Bool.and_eq_true, beq_iff_eq,
        Option.isNone_iff_eq_none, not_and]
      intro hxi
      exact habsent x hx hxi
    refine ⟨hget2, ?_, ?_, ?_, ?_, ?_, ?_⟩
    · intro title description completed now
      simp [update_task_route, hget2]
    · intro tDel tUpd
      simp [delete_task_route, hget2]
    · intro now
      simp [toggle_task_completion, hget2]
    · intro now
      simp [complete_task_impl, hfind2]
    · intro tDel tUpd
      simp [delete_task_impl, hfind2]
    · intro title description due_date now h
      have hz : (title.isNone && description.isNone && due_date.isNone) = false := by
        cases title <;> cases description <;> cases due_date <;> simp_all
      simp [update_task_impl, hz, hfind2]

/-- Witness for C1: a concrete one-row table owned by `alice` and an
empty table; the caller `bob` receives the identical 404 and the
identical tool envelope in the cross-owner case and the absent case. -/
theorem task_ops_cross_owner_C1_witness :
    get_user_task 1 "bob"
        ⟨[⟨1, "alice", "T", "", false, .medium, none, [], .nonePat, 0, 0, none⟩], 2⟩
      = .error taskNotFoundError ∧
    complete_task_impl "bob" 1 5
        ⟨[⟨1, "alice", "T", "", false, .medium, none, [], .nonePat, 0, 0, none⟩], 2⟩
      = (taskNotFoundResult,
         ⟨[⟨1, "alice", "T", "", false, .medium, none, [], .nonePat, 0, 0, none⟩], 2⟩) ∧
    get_user_task 1 "bob" ⟨[], 2⟩ = .error taskNotFoundError ∧
    complete_task_impl "bob" 1 5 ⟨[], 2⟩ = (taskNotFoundResult, ⟨[], 2⟩) := by
  have h := task_ops_cross_owner_C1
    ⟨[⟨1, "alice", "T", "", false, .medium, none, [], .nonePat, 0, 0, none⟩], 2⟩
    "bob" 1 ⟨1, "alice", "T", "", false, .medium, none, [], .nonePat, 0, 0, none⟩
    (by simp [TaskDB.idsNodup]) (List.mem_singleton.mpr rfl) rfl rfl (by decide)
  have habs := h.2.2.2.2.2.2.2 ⟨[], 2⟩ (by intro x hx; cases hx)
  exact ⟨h.1, h.2.2.2.2.1 5, habs.1, habs.2.2.2.2.1 5⟩


/-- C2: after a successful soft delete by the owner, a subsequent get
fails with the shared 404, neither the route-level list (under any
completion filter) nor the tool-adapter list (under any status string)
ever includes the task, and yet the row still exists in the table with
`deleted_at` set to the deletion instant - the table's row count is
unchanged, so the row was never physically removed. -/
theorem soft_delete_C2
    (db : TaskDB) (u : String) (i : Nat) (t : Task) (tDel tUpd : Nat)
    (hnd : db.idsNodup) (hmem : t ∈ db.tasks) (hid : t.id = i)
    (howner : t.user_id = u) (hdel : t.deleted_at = none) :
    (delete_task_route i u tDel tUpd db).1 = .ok () ∧
    get_user_task i u (delete_task_route i u tDel tUpd db).2
      = .error taskNotFoundError ∧
    (∀ completed : Option Bool,
      ∀ x ∈ list_tasks_route u completed (delete_task_route i u tDel tUpd db).2,
        x.id ≠ i) ∧
    (∀ statusArg : String,
      ∀ e ∈ (list_tasks_impl u statusArg (delete_task_route i u tDel tUpd db).2).tasks,
        e.task_id ≠ i) ∧
    (∃ x ∈ (delete_task_route i u tDel tUpd db).2.tasks,
      x.id = i ∧ x.deleted_at = some tDel ∧ x.updated_at = tUpd) ∧
    (delete_task_route i u tDel tUpd db).2.tasks.length = db.tasks.length := by
  have hfind := find_active_of_mem hnd hmem hid hdel
  have hget : get_user_task i u db = .ok t := by
    simp [get_user_task, hfind, howner]
  obtain ⟨l₁, l₂, hsplit, hneg, hupd⟩ :=
    updateFirst_decomp (fun _ => { t with deleted_at := some tDel, updated_at := tUpd })
      hfind
  have hroute : delete_task_route i u tDel tUpd db
      = (.ok (), ⟨l₁ ++ { t with deleted_at := some tDel, updated_at := tUpd } :: l₂,
                  db.nextId⟩) := by
    simp [delete_task_route, hget, hupd]
  have hids : (∀ x ∈ l₁, x.id ≠ t.id) ∧ (∀ x ∈ l₂, x.id ≠ t.id) :=
    nodup_decomp_id (by rw [← hsplit]; exact hnd)
  have hnone : ∀ x ∈ l₁ ++ { t with deleted_at := some tDel, updated_at := tUpd } :: l₂,
      activeWithId i x = false := by
    intro x hx
    rcases List.mem_append.mp hx with hx1 | hx2
    · exact hneg x hx1
    · rcases List.mem_cons.mp hx2 with rfl | hx3
      · simp [activeWithId]
      · have hne : x.id ≠ i := fun hxi => hids.2 x hx3 (hxi.trans hid.symm)
        simp [activeWithId, hne]
  refine ⟨by rw [hroute], ?_, ?_, ?_, ?_, ?_⟩
  · rw [hroute]
    have : (l₁ ++ { t with deleted_at := some tDel, updated_at := tUpd } :: l₂).find?
        (activeWithId i) = none := by
      rw [List.find?_eq_none]
      intro x hx
      simp [hnone x hx]
    simp [get_user_task, this]
  · intro completed x hx hxi
    rw [hroute] at hx
    have hx2 : x ∈ (l₁ ++ { t with deleted_at := some tDel, updated_at := tUpd } :: l₂).filter
        (fun t => t.user_id == u && t.deleted_at.isNone) := by
      rcases completed with _ | b
      · simpa [list_tasks_route, List.mem_insertionSort] using hx
      · have := (by simpa [list_tasks_route, List.mem_insertionSort] using hx :
          x ∈ ((l₁ ++ { t with deleted_at := some tDel, updated_at := tUpd } :: l₂).filter
            (fun t => t.user_id == u && t.deleted_at.isNone)).filter
            (fun t => t.completed == b))
        exact List.mem_of_mem_filter this
    have hmem2 := List.mem_of_mem_filter hx2
    have hprop := List.of_mem_filter hx2
    have : activeWithId i x = true := by
      simp only [Bool.and_eq_true, beq_iff_eq] at hprop
      simp [activeWithId, hxi, hprop.2]
    rw [hnone x hmem2] at this
    cases this
  · intro statusArg e he hei
    rw [hroute] at he
    simp only [list_tasks_impl, List.mem_map] at he
    obtain ⟨x, hx, hxe⟩ := he
    have hx2 : x ∈ (l₁ ++ { t with deleted_at := some tDel, updated_at := tUpd } :: l₂).filter
        (fun t => t.user_id == u && t.deleted_at.isNone) := by
      by_cases h1 : statusArg == "pending"
      · rw [List.mem_insertionSort] at hx
        simp only [h1, if_pos] at hx
        exact List.mem_of_mem_filter hx
      · by_cases h2 : statusArg == "completed"
        · rw [List.mem_insertionSort] at hx
          simp only [h1, h2, if_neg, if_pos, Bool.false_eq_true] at hx
          exact List.mem_of_mem_filter hx
        · rw [List.mem_insertionSort] at hx
          simpa [h1, h2] using hx
    have hmem2 := List.mem_of_mem_filter hx2
    have hprop := List.of_mem_filter hx2
    have : activeWithId i x = true := by
      simp only [Bool.and_eq_true, beq_iff_eq] at hprop
      have : x.id = i := by rw [← hxe] at hei; exact hei
      simp [activeWithId, this, hprop.2]
    rw [hnone x hmem2] at this
    cases this
  · refine ⟨{ t with deleted_at := some tDel, updated_at := tUpd }, ?_, by simp [hid], rfl, rfl⟩
    rw [hroute]
    exact List.mem_append.mpr (Or.inr (List.mem_cons_self _ _))
  · rw [hroute, hsplit]
    simp

/-- Witness for C2: deleting `alice`'s only task at instants 7 and 8
makes get return the 404, empties both listings, and keeps the row with
`deleted_at = 7`. -/
theorem soft_delete_C2_witness :
    (delete_task_route 1 "alice" 7 8
        ⟨[⟨1, "alice", "T", "", false, .medium, none, [], .nonePat, 0, 0, none⟩], 2⟩).1
      = .ok () ∧
    get_user_task 1 "alice"
        (delete_task_route 1 "alice" 7 8
          ⟨[⟨1, "alice", "T", "", false, .medium, none, [], .nonePat, 0, 0, none⟩], 2⟩).2
      = .error taskNotFoundError ∧
    (∀ x ∈ list_tasks_route "alice" none
        (delete_task_route 1 "alice" 7 8
          ⟨[⟨1, "alice", "T", "", false, .medium, none, [], .nonePat, 0, 0, none⟩], 2⟩).2,
      x.id ≠ 1) ∧
    (delete_task_route 1 "alice" 7 8
        ⟨[⟨1, "alice", "T", "", false, .medium, none, [], .nonePat, 0, 0, none⟩], 2⟩).2.tasks.length
      = 1 := by
  have h := soft_delete_C2
    ⟨[⟨1, "alice", "T", "", false, .medium, none, [], .nonePat, 0, 0, none⟩], 2⟩
    "alice" 1 ⟨1, "alice", "T", "", false, .medium, none, [], .nonePat, 0, 0, none⟩
    7 8 (by simp [TaskDB.idsNodup]) (List.mem_singleton.mpr rfl) rfl rfl rfl
  exact ⟨h.1, h.2.1, h.2.2.1 none, h.2.2.2.2.2⟩


/-- C5: the tool adapter's complete operation is idempotent: on a task
of the caller's that is already completed it returns the success
envelope (`success := true`, no error fields, the informational
"already completed" message) and leaves the table entirely
unchanged. -/
theorem complete_task_idempotent_C5
    (db : TaskDB) (u : String) (i : Nat) (t : Task) (now : Nat)
    (hnd : db.idsNodup) (hmem : t ∈ db.tasks) (hid : t.id = i)
    (howner : t.user_id = u) (hdel : t.deleted_at = none)
    (hcompleted : t.completed = true) :
    complete_task_impl u i now db =
      ({ success := true, task_id := some t.id, title := some t.title,
         statusField := some "completed",
         message := some ("Task \x27" ++ t.title ++ "\x27 is already completed.") },
       db) := by
  have hfind := find_active_of_mem hnd hmem hid hdel
  simp [complete_task_impl, hfind, howner, hcompleted]

/-- Witness for C5: completing `alice`'s already-completed task 1
returns the informational success envelope and the unchanged table. -/
theorem complete_task_idempotent_C5_witness :
    complete_task_impl "alice" 1 9
        ⟨[⟨1, "alice", "T", "", true, .medium, none, [], .nonePat, 0, 0, none⟩], 2⟩
      = ({ success := true, task_id := some 1, title := some "T",
           statusField := some "completed",
           message := some "Task \x27T\x27 is already completed." },
         ⟨[⟨1, "alice", "T", "", true, .medium, none, [], .nonePat, 0, 0, none⟩], 2⟩) :=
  complete_task_idempotent_C5
    ⟨[⟨1, "alice", "T", "", true, .medium, none, [], .nonePat, 0, 0, none⟩], 2⟩
    "alice" 1 ⟨1, "alice", "T", "", true, .medium, none, [], .nonePat, 0, 0, none⟩
    9 (by simp [TaskDB.idsNodup]) (List.mem_singleton.mpr rfl) rfl rfl rfl rfl


/-- C3 counterexample: the claim says an update supplying zero fields
fails with a validation error, and its sources include the HTTP update
route - but the route accepts a zero-field `PUT`: on a concrete
one-task table, updating task 1 with no fields provided returns 200
with the task unchanged except for a bumped `updated_at`, and no error
of any kind. -/
theorem update_zero_fields_C3_counterexample :
    (update_task_route 1 "alice" none none none 5
        ⟨[⟨1, "alice", "T", "D", false, .medium, none, [], .nonePat, 0, 0, none⟩], 2⟩).1
      = .ok ⟨1, "alice", "T", "D", false, .medium, none, [], .nonePat, 0, 5, none⟩ ∧
    (∀ e : HttpError,
      (update_task_route 1 "alice" none none none 5
          ⟨[⟨1, "alice", "T", "D", false, .medium, none, [], .nonePat, 0, 0, none⟩], 2⟩).1
        ≠ .error e) := by
  constructor
  · rfl
  · intro e h
    rw [show (update_task_route 1 "alice" none none none 5
        ⟨[⟨1, "alice", "T", "D", false, .medium, none, [], .nonePat, 0, 0, none⟩], 2⟩).1
      = .ok ⟨1, "alice", "T", "D", false, .medium, none, [], .nonePat, 0, 5, none⟩ from rfl] at h
    cases h

/-- C3 amended: zero-field validation lives in the tool adapter - the
tool update with no provided field fails with `VALIDATION_ERROR` and
changes nothing, whereas the HTTP update route accepts a zero-field
request and changes nothing but `updated_at`; in both layers an update
that provides exactly one field changes only that field (the tool layer
additionally strips the provided string), leaves every other field at
its prior value, and sets `updated_at` to the fresh clock read, which
strictly advances it. -/
theorem update_single_field_C3
    (db : TaskDB) (u : String) (i : Nat) (t : Task) (now : Nat)
    (hnd : db.idsNodup) (hmem : t ∈ db.tasks) (hid : t.id = i)
    (howner : t.user_id = u) (hdel : t.deleted_at = none)
    (hadv : t.updated_at < now) :
    (∀ (u2 : String) (i2 now2 : Nat) (db2 : TaskDB),
      update_task_impl u2 i2 none none none now2 db2 = (noFieldsResult, db2)) ∧
    (∀ s : String, update_task_impl u i (some s) none none now db
      = (updateSuccessResult { t with title := pyStrip s, updated_at := now },
         { db with tasks := updateFirst (activeWithId i) (fun _ => { t with title := pyStrip s, updated_at := now }) db.tasks })) ∧
    (∀ s : String, update_task_impl u i none (some s) none now db
      = (updateSuccessResult { t with description := pyStrip s, updated_at := now },
         { db with tasks := updateFirst (activeWithId i) (fun _ => { t with description := pyStrip s, updated_at := now }) db.tasks })) ∧
    (∀ (s : String) (d : Nat), datetimeFromIsoformat s = some d →
      update_task_impl u i none none (some s) now db
      = (updateSuccessResult { t with due_date := some d, updated_at := now },
         { db with tasks := updateFirst (activeWithId i) (fun _ => { t with due_date := some d, updated_at := now }) db.tasks })) ∧
    (update_task_route i u none none none now db
      = (.ok { t with updated_at := now },
         { db with tasks := updateFirst (activeWithId i) (fun _ => { t with updated_at := now }) db.tasks })) ∧
    (∀ s : String, update_task_route i u (some s) none none now db
      = (.ok { t with title := s, updated_at := now },
         { db with tasks := updateFirst (activeWithId i) (fun _ => { t with title := s, updated_at := now }) db.tasks })) ∧
    (∀ s : String, update_task_route i u none (some s) none now db
      = (.ok { t with description := s, updated_at := now },
         { db with tasks := updateFirst (activeWithId i) (fun _ => { t with description := s, updated_at := now }) db.tasks })) ∧
    (∀ b : Bool, update_task_route i u none none (some b) now db
      = (.ok { t with completed := b, updated_at := now },
         { db with tasks := updateFirst (activeWithId i) (fun _ => { t with completed := b, updated_at := now }) db.tasks })) ∧
    t.updated_at < ({ t with updated_at := now } : Task).updated_at := by
  have hfind := find_active_of_mem hnd hmem hid hdel
  have hget : get_user_task i u db = .ok t := by
    simp [get_user_task, hfind, howner]
  refine ⟨?_, ?_, ?_, ?_, ?_, ?_, ?_, ?_, by simpa using hadv⟩
  · intro u2 i2 now2 db2
    simp [update_task_impl]
  · intro s
    simp [update_task_impl, hfind, howner]
  · intro s
    simp [update_task_impl, hfind, howner]
  · intro s d hparse
    simp [update_task_impl, hfind, howner, hparse]
  · simp [update_task_route, hget]
  · intro s
    simp [update_task_route, hget]
  · intro s
    simp [update_task_route, hget]
  · intro b
    simp [update_task_route, hget]

/-- Witness for C3 (amended): on a concrete one-task table the tool
update with zero fields fails with `VALIDATION_ERROR`, the tool update
of only the title rewrites only the title (stripped) and the timestamp,
and the route update of only the description rewrites only the
description and the timestamp. -/
theorem update_single_field_C3_witness :
    update_task_impl "alice" 1 none none none 5
        ⟨[⟨1, "alice", "T", "D", false, .medium, none, [], .nonePat, 0, 0, none⟩], 2⟩
      = (noFieldsResult,
         ⟨[⟨1, "alice", "T", "D", false, .medium, none, [], .nonePat, 0, 0, none⟩], 2⟩) ∧
    update_task_impl "alice" 1 (some " New ") none none 5
        ⟨[⟨1, "alice", "T", "D", false, .medium, none, [], .nonePat, 0, 0, none⟩], 2⟩
      = (updateSuccessResult ⟨1, "alice", "New", "D", false, .medium, none, [], .nonePat, 0, 5, none⟩,
         ⟨[⟨1, "alice", "New", "D", false, .medium, none, [], .nonePat, 0, 5, none⟩], 2⟩) ∧
    update_task_route 1 "alice" none (some "D2") none 5
        ⟨[⟨1, "alice", "T", "D", false, .medium, none, [], .nonePat, 0, 0, none⟩], 2⟩
      = (.ok ⟨1, "alice", "T", "D2", false, .medium, none, [], .nonePat, 0, 5, none⟩,
         ⟨[⟨1, "alice", "T", "D2", false, .medium, none, [], .nonePat, 0, 5, none⟩], 2⟩) := by
  have h := update_single_field_C3
    ⟨[⟨1, "alice", "T", "D", false, .medium, none, [], .nonePat, 0, 0, none⟩], 2⟩
    "alice" 1 ⟨1, "alice", "T", "D", false, .medium, none, [], .nonePat, 0, 0, none⟩
    5 (by simp [TaskDB.idsNodup]) (List.mem_singleton.mpr rfl) rfl rfl rfl (by decide)
  refine ⟨h.1 "alice" 1 5 _, ?_, ?_⟩
  · have h2 := h.2.1 " New "
    rw [h2]
    rfl
  · have h3 := h.2.2.2.2.2.2.1 "D2"
    rw [h3]
    rfl


/-- C4 counterexample: the claim asserts `created_at == updated_at` on
a freshly created-and-fetched task, but the backend model fills the two
columns from two separate `default_factory` clock reads, and the
microsecond clock may tick between them: creating `Buy milk` with the
first read at instant 0 and the second at instant 1 and immediately
fetching it returns the exact title and description with
`completed = false`, yet `created_at = 0 \ne 1 = updated_at`. -/
theorem create_then_get_C4_counterexample :
    get_user_task 1 "alice" (create_task "alice" "Buy milk" "" 0 1 ⟨[], 1⟩).2
      = .ok ⟨1, "alice", "Buy milk", "", false, .medium, none, [], .nonePat, 0, 1, none⟩ ∧
    (create_task "alice" "Buy milk" "" 0 1 ⟨[], 1⟩).1.created_at
      ≠ (create_task "alice" "Buy milk" "" 0 1 ⟨[], 1⟩).1.updated_at := by
  exact ⟨rfl, by decide⟩

/-- C4 amended: creating a task with a valid title and description and
immediately fetching it returns exactly the given title and
description with `completed = false`; in the backend store
`created_at` and `updated_at` come from two consecutive clock reads, so
`created_at \le updated_at` with equality exactly when the clock did
not tick in between - while the console store's `add` captures a
single instant, so there `created_at = updated_at` always holds. -/
theorem create_then_get_C4
    (db : TaskDB) (u title description : String) (t1 t2 : Nat)
    (hfresh : ∀ x ∈ db.tasks, x.id < db.nextId)
    (hord : t1 ≤ t2)
    (_hvalid : 1 ≤ title.length ∧ title.length ≤ 200 ∧ description.length ≤ 1000) :
    (get_user_task db.nextId u (create_task u title description t1 t2 db).2
      = .ok (create_task u title description t1 t2 db).1) ∧
    (create_task u title description t1 t2 db).1.title = title ∧
    (create_task u title description t1 t2 db).1.description = description ∧
    (create_task u title description t1 t2 db).1.completed = false ∧
    (create_task u title description t1 t2 db).1.created_at = t1 ∧
    (create_task u title description t1 t2 db).1.updated_at = t2 ∧
    (create_task u title description t1 t2 db).1.created_at
      ≤ (create_task u title description t1 t2 db).1.updated_at ∧
    (∀ (s : TaskStorage) (now : Nat),
      (∀ x ∈ s.tasks, x.id < s.next_id) →
      (TaskStorage.add s title description now).2.get s.next_id
          = some (TaskStorage.add s title description now).1 ∧
      (TaskStorage.add s title description now).1.created_at
          = (TaskStorage.add s title description now).1.updated_at) := by
  have hpre : db.tasks.find? (activeWithId db.nextId) = none := by
    rw [List.find?_eq_none]
    intro x hx
    have := hfresh x hx
    simp [activeWithId, Nat.ne_of_lt this]
  refine ⟨?_, rfl, rfl, rfl, rfl, rfl, by simpa using hord, ?_⟩
  · show get_user_task db.nextId u
      ⟨db.tasks ++ [(create_task u title description t1 t2 db).1], db.nextId + 1⟩
      = .ok (create_task u title description t1 t2 db).1
    simp only [get_user_task, List.find?_append, hpre, Option.none_or]
    simp [create_task, activeWithId]
  · intro s now hfresh2
    have hpre2 : s.tasks.find? (fun t => t.id == s.next_id) = none := by
      rw [List.find?_eq_none]
      intro x hx
      have := hfresh2 x hx
      simp [Nat.ne_of_lt this]
    refine ⟨?_, rfl⟩
    show (⟨s.tasks ++ [(TaskStorage.add s title description now).1], s.next_id + 1⟩ :
        TaskStorage).get s.next_id = some (TaskStorage.add s title description now).1
    simp only [TaskStorage.get, List.find?_append, hpre2, Option.none_or]
    simp [TaskStorage.add]

/-- Witness for C4 (amended): creating `Buy milk` in the empty backend
store at instants 3 and 3 round-trips exactly, and the console store
produces equal timestamps by construction. -/
theorem create_then_get_C4_witness :
    get_user_task 1 "alice" (create_task "alice" "Buy milk" "Milk" 3 3 ⟨[], 1⟩).2
      = .ok (create_task "alice" "Buy milk" "Milk" 3 3 ⟨[], 1⟩).1 ∧
    (create_task "alice" "Buy milk" "Milk" 3 3 ⟨[], 1⟩).1.title = "Buy milk" ∧
    (TaskStorage.add ⟨[], 1⟩ "Buy milk" "Milk" 4).1.created_at
      = (TaskStorage.add ⟨[], 1⟩ "Buy milk" "Milk" 4).1.updated_at := by
  have h := create_then_get_C4 ⟨[], 1⟩ "alice" "Buy milk" "Milk" 3 3
    (by intro x hx; cases hx) (Nat.le_refl 3) (by decide)
  exact ⟨h.1, h.2.1, (h.2.2.2.2.2.2.2 ⟨[], 1⟩ 4 (by intro x hx; cases hx)).2⟩


/-- C6 counterexample: the claim says a tool update whose due-date
string fails to parse leaves every field of the target task at its
prior value even when new title and description values were also
supplied - but the source assigns title and description onto the
session-held row before parsing the due date: on a concrete one-task
table, `update_task(1, title="New", description="NewD",
due_date="bad")` returns `success=false` with `VALIDATION_ERROR`, yet
the stored row's title and description have become `New` and `NewD`. -/
theorem update_bad_due_date_C6_counterexample :
    (update_task_impl "alice" 1 (some "New") (some "NewD") (some "bad") 5
        ⟨[⟨1, "alice", "Old", "OldD", false, .medium, none, [], .nonePat, 0, 0, none⟩], 2⟩).1
      = invalidDateResult "bad" ∧
    (update_task_impl "alice" 1 (some "New") (some "NewD") (some "bad") 5
        ⟨[⟨1, "alice", "Old", "OldD", false, .medium, none, [], .nonePat, 0, 0, none⟩], 2⟩).2
      = ⟨[⟨1, "alice", "New", "NewD", false, .medium, none, [], .nonePat, 0, 0, none⟩], 2⟩ := by
  exact ⟨rfl, rfl⟩

/-- C6 amended: an unparsable due-date string always yields
`success: false` with `VALIDATION_ERROR`.  For `add_task` the check
precedes row construction, so no task is created and the store is
unchanged.  For `update_task` the due date is parsed only after the
supplied title and description have been assigned onto the row, so
those assignments persist in the session while `due_date`,
`updated_at`, and every remaining field keep their prior values. -/
theorem bad_due_date_C6
    (db : TaskDB) (u : String) (i : Nat) (t : Task) (s : String) (now : Nat)
    (hnd : db.idsNodup) (hmem : t ∈ db.tasks) (hid : t.id = i)
    (howner : t.user_id = u) (hdel : t.deleted_at = none)
    (hparse : datetimeFromIsoformat s = none) (hne : s ≠ "") :
    (∀ (title description : String) (tC tU : Nat) (db2 : TaskDB),
      add_task_impl u title description (some s) tC tU db2
        = (invalidDateResult s, db2)) ∧
    (∀ title description : Option String,
      update_task_impl u i title description (some s) now db
        = (invalidDateResult s,
           (⟨updateFirst (activeWithId i)
               (fun _ => { t with title := (title.map pyStrip).getD t.title,
                                  description := (description.map pyStrip).getD t.description })
               db.tasks, db.nextId⟩ : TaskDB))) := by
  have hfind := find_active_of_mem hnd hmem hid hdel
  subst howner
  constructor
  · intro title description tC tU db2
    simp [add_task_impl, hne, hparse]
  · intro title description
    cases title <;> cases description <;>
      simp [update_task_impl, hfind, hparse]

/-- Witness for C6 (amended): with the unparsable due date `bad`,
`add_task` returns the validation error and leaves the empty store
empty, and `update_task` supplying only the due date changes nothing at
all on a concrete one-task table. -/
theorem bad_due_date_C6_witness :
    add_task_impl "alice" "T" "" (some "bad") 0 0 ⟨[], 1⟩
      = (invalidDateResult "bad", ⟨[], 1⟩) ∧
    update_task_impl "alice" 1 none none (some "bad") 5
        ⟨[⟨1, "alice", "Old", "OldD", false, .medium, none, [], .nonePat, 0, 0, none⟩], 2⟩
      = (invalidDateResult "bad",
         ⟨[⟨1, "alice", "Old", "OldD", false, .medium, none, [], .nonePat, 0, 0, none⟩], 2⟩) := by
  have h := bad_due_date_C6
    ⟨[⟨1, "alice", "Old", "OldD", false, .medium, none, [], .nonePat, 0, 0, none⟩], 2⟩
    "alice" 1 ⟨1, "alice", "Old", "OldD", false, .medium, none, [], .nonePat, 0, 0, none⟩
    "bad" 5 (by simp [TaskDB.idsNodup]) (List.mem_singleton.mpr rfl) rfl rfl rfl rfl
    (by decide)
  refine ⟨h.1 "T" "" 0 0 ⟨[], 1⟩, ?_⟩
  have h2 := h.2 none none
  rw [h2]
  rfl


/-- C7: when the external agent run times out or raises an unexpected
failure, the chat turn re-signals it as the single 503
`AI_SERVICE_UNAVAILABLE` condition, and the resulting store holds
exactly the already-persisted inbound user message (role `user`, the
stripped text) appended to the message table - no assistant message is
stored for the turn.  Both conversation paths are covered: an existing
conversation of the caller's, and the fresh conversation created when
no id is supplied (which persists alongside the user message). -/
theorem chat_agent_failure_C7
    (u message : String) (outcome : AgentOutcome) (clk : ChatClock)
    (st : ChatState)
    (hmsg : pyStrip message ≠ "")
    (hout : outcome = .timeout ∨ ∃ m, outcome = .failure m) :
    ∃ em, run_agent outcome = .error em ∧
    (∀ (cid : Nat) (conv : Conversation),
      get_conversation cid u st = some conv →
      send_chat_message u (some cid) message outcome clk st
        = (.error ⟨503, "AI_SERVICE_UNAVAILABLE", em⟩,
           (⟨st.convs,
             st.msgs ++ [⟨st.nextMsgId, conv.id, u, "user", pyStrip message,
                          none, clk.userMsgAt⟩],
             st.nextConvId, st.nextMsgId + 1⟩ : ChatState))) ∧
    (send_chat_message u none message outcome clk st
        = (.error ⟨503, "AI_SERVICE_UNAVAILABLE", em⟩,
           (⟨st.convs ++ [⟨st.nextConvId, u, clk.convCreatedAt,
                           clk.convUpdatedAt, none⟩],
             st.msgs ++ [⟨st.nextMsgId, st.nextConvId, u, "user", pyStrip message,
                          none, clk.userMsgAt⟩],
             st.nextConvId + 1, st.nextMsgId + 1⟩ : ChatState))) := by
  have hrun : ∃ em, run_agent outcome = .error em := by
    rcases hout with rfl | ⟨m, rfl⟩
    · exact ⟨_, rfl⟩
    · exact ⟨_, rfl⟩
  obtain ⟨em, hem⟩ := hrun
  refine ⟨em, hem, ?_, ?_⟩
  · intro cid conv hconv
    simp [send_chat_message, hmsg, hconv, chat_turn_after_conversation,
      save_message, hem]
  · simp [send_chat_message, hmsg, chat_turn_after_conversation,
      create_conversation, save_message, hem]

/-- Witness for C7: with the agent timing out, the turn against an
existing conversation 7 and the turn with no conversation id both
return the 503 and append exactly the one user message. -/
theorem chat_agent_failure_C7_witness :
    send_chat_message "alice" (some 7) " hi " .timeout ⟨1, 1, 2, 3, 4⟩
        ⟨[⟨7, "alice", 0, 0, none⟩], [], 8, 1⟩
      = (.error ⟨503, "AI_SERVICE_UNAVAILABLE", "AI service timed out. Please try again."⟩,
         (⟨[⟨7, "alice", 0, 0, none⟩],
           [⟨1, 7, "alice", "user", "hi", none, 2⟩], 8, 2⟩ : ChatState)) ∧
    send_chat_message "alice" none " hi " .timeout ⟨1, 1, 2, 3, 4⟩
        ⟨[⟨7, "alice", 0, 0, none⟩], [], 8, 1⟩
      = (.error ⟨503, "AI_SERVICE_UNAVAILABLE", "AI service timed out. Please try again."⟩,
         (⟨[⟨7, "alice", 0, 0, none⟩, ⟨8, "alice", 1, 1, none⟩],
           [⟨1, 8, "alice", "user", "hi", none, 2⟩], 9, 2⟩ : ChatState)) := by
  have h := chat_agent_failure_C7 "alice" " hi " .timeout ⟨1, 1, 2, 3, 4⟩
    ⟨[⟨7, "alice", 0, 0, none⟩], [], 8, 1⟩ (by decide) (Or.inl rfl)
  obtain ⟨em, hem, ha, hb⟩ := h
  have hem2 : em = "AI service timed out. Please try again." := by
    have : run_agent .timeout = .error "AI service timed out. Please try again." := rfl
    rw [this] at hem
    cases hem
    rfl
  subst hem2
  constructor
  · have := ha 7 ⟨7, "alice", 0, 0, none⟩ (by decide)
    rw [this]
    rfl
  · rw [hb]
    rfl


/-- The strict lexicographic message order of the history invariant:
earlier creation instant, ties broken by smaller (= earlier-inserted)
id. -/
def msgLexLt (a b : Message) : Prop :=
  a.created_at < b.created_at ∨ (a.created_at = b.created_at ∧ a.id < b.id)

/-- Inserting a message whose id is below every id in a lex-ordered
list keeps the list lex-ordered: the sort key is `created_at`, and the
inserted element goes in front of equal keys, which is exactly where
its smaller id belongs. -/
theorem pairwise_lex_orderedInsert {x : Message} {l : List Message}
    (h1 : l.Pairwise msgLexLt) (h2 : ∀ y ∈ l, x.id < y.id) :
    (l.orderedInsert msgCreatedLe x).Pairwise msgLexLt := by
  induction l with
  | nil => simp [List.orderedInsert]
  | cons b l ih =>
    by_cases hr : msgCreatedLe x b
    · rw [List.orderedInsert, if_pos hr]
      refine List.Pairwise.cons ?_ h1
      intro y hy
      have hid := h2 y hy
      have hcr : x.created_at ≤ y.created_at := by
        rcases List.mem_cons.mp hy with rfl | hy2
        · exact hr
        · have := (List.pairwise_cons.mp h1).1 y hy2
          rcases this with h | ⟨h, _⟩
          · exact Nat.le_trans hr (Nat.le_of_lt h)
          · exact Nat.le_trans hr (Nat.le_of_eq h)
      rcases Nat.lt_or_ge x.created_at y.created_at with h | h
      · exact Or.inl h
      · exact Or.inr ⟨Nat.le_antisymm hcr h, hid⟩
    · rw [List.orderedInsert, if_neg hr]
      have hb : b.created_at < x.created_at := Nat.lt_of_not_le hr
      refine List.Pairwise.cons ?_ (ih (List.pairwise_cons.mp h1).2
        (fun y hy => h2 y (List.mem_cons_of_mem b hy)))
      intro y hy
      rcases (List.mem_orderedInsert _).mp hy with rfl | hy2
      · exact Or.inl hb
      · exact (List.pairwise_cons.mp h1).1 y hy2

/-- The stable insertion sort on `created_at` turns any list whose ids
strictly increase along it (the append-only insertion order) into a
lex-ordered list: sorted by creation instant with ties in id order. -/
theorem pairwise_lex_insertionSort {l : List Message}
    (h : l.Pairwise (fun a b => a.id < b.id)) :
    (l.insertionSort msgCreatedLe).Pairwise msgLexLt := by
  induction l with
  | nil => simp [List.insertionSort]
  | cons x xs ih =>
    rw [List.insertionSort]
    refine pairwise_lex_orderedInsert (ih (List.pairwise_cons.mp h).2) ?_
    intro y hy
    exact (List.pairwise_cons.mp h).1 y ((List.mem_insertionSort msgCreatedLe).mp hy)

/-- C9: for a conversation owned by the caller, the history loader
returns only that conversation's messages, ordered by `created_at`
ascending with ties broken by insertion (id) order, capped at the given
limit; at the endpoint the limit defaults to 50 and a caller-supplied
limit outside 1..100 is rejected, so callers are bounded to that
range.  The id-ordering hypothesis is the append-only insertion
invariant of the message table. -/
theorem load_history_C9
    (st : ChatState) (u : String) (cid : Nat) (conv : Conversation)
    (hconv : get_conversation cid u st = some conv)
    (hids : st.msgs.Pairwise (fun a b => a.id < b.id)) :
    (∀ limit : Nat,
      (load_messages cid st limit).length ≤ limit ∧
      (∀ m ∈ load_messages cid st limit, m.conversation_id = cid) ∧
      (load_messages cid st limit).Pairwise msgLexLt) ∧
    (get_conversation_messages cid u none st
      = .ok ((load_messages cid st 50).map (fun m =>
          ⟨m.id, m.role, m.content, m.tool_calls, m.created_at⟩))) ∧
    (∀ l : Nat, 1 ≤ l → l ≤ 100 →
      get_conversation_messages cid u (some l) st
        = .ok ((load_messages cid st l).map (fun m =>
            ⟨m.id, m.role, m.content, m.tool_calls, m.created_at⟩))) ∧
    (∀ l : Nat, l < 1 ∨ 100 < l →
      get_conversation_messages cid u (some l) st
        = .error ⟨422, "VALIDATION_ERROR", "limit must be between 1 and 100"⟩) ∧
    (∀ (limit : Nat) (ms : List MessageResponse),
      get_conversation_messages cid u (some limit) st = .ok ms →
      ms.Pairwise (fun a b => a.created_at < b.created_at ∨
        (a.created_at = b.created_at ∧ a.id < b.id)) ∧
      ms.length ≤ limit) := by
  have hcore : ∀ limit : Nat,
      (load_messages cid st limit).length ≤ limit ∧
      (∀ m ∈ load_messages cid st limit, m.conversation_id = cid) ∧
      (load_messages cid st limit).Pairwise msgLexLt := by
    intro limit
    refine ⟨List.length_take_le _ _, ?_, ?_⟩
    · intro m hm
      have hm2 := List.mem_of_mem_take hm
      have hm3 := (List.mem_insertionSort msgCreatedLe).mp hm2
      have := List.of_mem_filter hm3
      simpa using this
    · have hfiltered : (st.msgs.filter
          (fun m => m.conversation_id == cid)).Pairwise (fun a b => a.id < b.id) :=
        hids.filter _
      exact (pairwise_lex_insertionSort hfiltered).sublist (List.take_sublist _ _)
  have hok : ∀ l : Nat, ¬(l < 1 ∨ 100 < l) →
      get_conversation_messages cid u (some l) st
        = .ok ((load_messages cid st l).map (fun m =>
            ⟨m.id, m.role, m.content, m.tool_calls, m.created_at⟩)) := by
    intro l hcond
    simp only [get_conversation_messages, if_neg hcond, hconv]
  have herr : ∀ l : Nat, (l < 1 ∨ 100 < l) →
      get_conversation_messages cid u (some l) st
        = .error ⟨422, "VALIDATION_ERROR", "limit must be between 1 and 100"⟩ := by
    intro l hout
    simp only [get_conversation_messages, if_pos hout]
  refine ⟨hcore, ?_, ?_, herr, ?_⟩
  · simp [get_conversation_messages, hconv]
  · intro l h1 h100
    exact hok l (by omega)
  · intro limit ms hms
    by_cases hb : limit < 1 ∨ 100 < limit
    · rw [herr limit hb] at hms
      cases hms
    · rw [hok limit hb] at hms
      cases hms
      constructor
      · rw [List.pairwise_map]
        exact (hcore limit).2.2.imp (fun h => h)
      · rw [List.length_map]
        exact (hcore limit).1

/-- Witness for C9: a conversation with three messages, two of which
share a creation instant, loads in ascending creation order with the
tie broken by id, excludes another conversation's message, and the
out-of-range limit 0 is rejected. -/
theorem load_history_C9_witness :
    get_conversation_messages 7 "alice" none
        ⟨[⟨7, "alice", 0, 0, none⟩],
         [⟨1, 7, "alice", "user", "a", none, 5⟩,
          ⟨2, 7, "alice", "assistant", "b", none, 5⟩,
          ⟨3, 7, "alice", "user", "c", none, 4⟩,
          ⟨4, 9, "alice", "user", "d", none, 1⟩], 10, 5⟩
      = .ok [⟨3, "user", "c", none, 4⟩, ⟨1, "user", "a", none, 5⟩,
             ⟨2, "assistant", "b", none, 5⟩] ∧
    get_conversation_messages 7 "alice" (some 0)
        ⟨[⟨7, "alice", 0, 0, none⟩],
         [⟨1, 7, "alice", "user", "a", none, 5⟩,
          ⟨2, 7, "alice", "assistant", "b", none, 5⟩,
          ⟨3, 7, "alice", "user", "c", none, 4⟩,
          ⟨4, 9, "alice", "user", "d", none, 1⟩], 10, 5⟩
      = .error ⟨422, "VALIDATION_ERROR", "limit must be between 1 and 100"⟩ := by
  have h := load_history_C9
    ⟨[⟨7, "alice", 0, 0, none⟩],
     [⟨1, 7, "alice", "user", "a", none, 5⟩,
      ⟨2, 7, "alice", "assistant", "b", none, 5⟩,
      ⟨3, 7, "alice", "user", "c", none, 4⟩,
      ⟨4, 9, "alice", "user", "d", none, 1⟩], 10, 5⟩
    "alice" 7 ⟨7, "alice", 0, 0, none⟩ (by decide) (by decide)
  constructor
  · rw [h.2.1]
    rfl
  · exact h.2.2.2.1 0 (Or.inl (by decide))

end Todo
